import Mathlib

/-!
Verification of the generic backend-filter / pagination hook
(`useBackendFilters` in `src/hooks/useAssignments.ts`) of the stoodiora
repository.  The query construction, pagination state and effect
wiring of the hook are embedded shallowly below; theorems about the embedding settle
the testable properties stated in the specification.
-/

set_option maxHeartbeats 1000000

namespace Stoodiora

/-! ## Query-condition AST

Each constructor records one clause the hook can attach to the backend
query while `fetchData` composes it (scope clause, role-join id
restriction, quotation validity logic, search clause, grouped static
filters). -/

/-- One condition of the composed backend query, as produced by
`fetchData`. -/
inductive Cond where
  /-- Clause query.eq on the firm_id column: the workspace restriction. -/
  | firmEq (firmId : String)
  /-- Clause query.eq on the assigned_to column: tasks, non-admin. -/
  | assignedToEq (uid : String)
  /-- Clause query.or over staff_id.eq.UID and freelancer_id.eq.UID: assignments, non-admin. -/
  | staffOrFreelancerEq (uid : String)
  /-- Clause query.in on the id column: events with role filters active. -/
  | idIn (ids : List String)
  /-- Clause query.not: converted_to_event is non-null. -/
  | convertedNotNull
  /-- Clause query.is: converted_to_event is null. -/
  | convertedIsNull
  /-- Clause query.lt on valid_until against today. -/
  | validUntilLt (today : String)
  /-- Clause query.or: valid_until is null, or valid_until gte today. -/
  | validUntilNullOrGte (today : String)
  /-- Search clause: query.or of ilike predicates over the configured
  searchable columns with the sanitized term. -/
  | searchOr (fields : List String) (safeTerm : List Char)
  /-- Client-name ilike clause against the foreign clients table. -/
  | clientNameIlike (safeTerm : List Char)
  /-- Clause query.in over one grouped static filter. -/
  | fieldIn (field : String) (values : List String)
deriving DecidableEq, Repr

/-! ## Static filter-key mapping

The `fieldMappings` record of `fetchData`, transcribed entry for entry:
filter key ↦ (column, value). -/

/-- The `fieldMappings` lookup table of `fetchData` as an association
list in source order. -/
def fieldMappings : List (String × String × String) :=
  [ ("freelancer_photographer", "role", "Photographer"),
    ("freelancer_cinematographer", "role", "Cinematographer"),
    ("freelancer_drone_pilot", "role", "Drone Pilot"),
    ("freelancer_editor", "role", "Editor"),
    ("other_role", "role", "Other"),
    ("photographer", "role", "Photographer"),
    ("cinematographer", "role", "Cinematographer"),
    ("editor", "role", "Editor"),
    ("drone", "role", "Drone Pilot"),
    ("credit", "entry_type", "Credit"),
    ("debit", "entry_type", "Debit"),
    ("assets", "entry_type", "Assets"),
    ("cameras", "category", "Cameras"),
    ("lenses", "category", "Lenses"),
    ("lighting_equipment", "category", "Lighting Equipment"),
    ("audio_equipment", "category", "Audio Equipment"),
    ("drones", "category", "Drones"),
    ("stabilizers", "category", "Stabilizers & Gimbals"),
    ("tripods", "category", "Tripods & Stands"),
    ("storage", "category", "Storage & Backup"),
    ("computer", "category", "Computer & Software"),
    ("office_equipment", "category", "Office Equipment"),
    ("vehicles", "category", "Vehicles"),
    ("studio_rent", "category", "Studio Rent"),
    ("utilities", "category", "Utilities"),
    ("marketing_expense", "category", "Marketing"),
    ("insurance", "category", "Insurance"),
    ("maintenance_expense", "category", "Maintenance"),
    ("travel_expense", "category", "Travel"),
    ("staff_salary", "category", "Staff Salary"),
    ("freelancer_payment", "category", "Freelancer Payment"),
    ("bank_charges", "category", "Bank Charges"),
    ("taxes", "category", "Taxes"),
    ("loan_emi", "category", "Loan & EMI"),
    ("event_revenue", "category", "Event Revenue"),
    ("other_income", "category", "Other Income"),
    ("other_expense", "category", "Other Expense"),
    ("custom", "category", "Custom"),
    ("completed", "status", "Completed"),
    ("in_progress", "status", "In Progress"),
    ("pending", "status", "Pending"),
    ("waiting_response", "status", "Waiting for Response"),
    ("accepted", "status", "Accepted"),
    ("declined", "status", "Declined"),
    ("on_hold", "status", "On Hold"),
    ("under_review", "status", "Under Review"),
    ("reported", "status", "Reported"),
    ("urgent_priority", "priority", "Urgent"),
    ("medium_priority", "priority", "Medium"),
    ("low_priority", "priority", "Low"),
    ("photo_editing", "task_type", "Photo Editing"),
    ("video_editing", "task_type", "Video Editing"),
    ("other_task", "task_type", "Other"),
    ("wedding", "event_type", "Wedding"),
    ("pre_wedding", "event_type", "Pre-Wedding"),
    ("ring_ceremony", "event_type", "Ring-Ceremony"),
    ("maternity", "event_type", "Maternity Photography"),
    ("others", "event_type", "Others"),
    ("equipment", "category", "Equipment"),
    ("travel", "category", "Travel"),
    ("food", "category", "Food"),
    ("salary", "category", "Salary"),
    ("marketing", "category", "Marketing"),
    ("maintenance", "category", "Maintenance"),
    ("accommodation", "category", "Accommodation"),
    ("software", "category", "Software"),
    ("other", "category", "Other"),
    ("cash_payment", "payment_method", "Cash"),
    ("digital_payment", "payment_method", "Digital") ]

/-- Lookup of a filter key in the mapping table: some (column, value)
when the key has a static mapping. -/
def lookupMapping (k : String) : Option (String × String) :=
  (fieldMappings.find? (fun e => e.1 = k)).map Prod.snd

/-- Filter keys handled by the events pre-filter join (photographer,
cinematographer, editor, drone; line 207). -/
def roleFilterKeys : List String :=
  ["photographer", "cinematographer", "editor", "drone"]

/-- Filter keys for staff completeness, excluded from the generic pass
(staff_incomplete, staff_complete, no_staff; line 308). -/
def staffStatusKeys : List String :=
  ["staff_incomplete", "staff_complete", "no_staff"]

/-! ## Grouping of statically-mapped filters

`fetchData` walks `otherFilters`, creating one group per target column
(a JS record keyed by column) and pushing each mapped value onto the
group of its column; each group then becomes one query.in clause. -/

/-- Insert one mapped (column, value) pair into the groups record: push
onto the existing group for that column, or append a new group. -/
def addToGroups : List (String × List String) → String → String → List (String × List String)
  | [], f, v => [(f, [v])]
  | g :: gs, f, v =>
      if g.1 = f then (g.1, g.2 ++ [v]) :: gs else g :: addToGroups gs f v

/-- One step of the grouping walk: a key with a static mapping is
inserted into the group of its column, an unmapped key is skipped. -/
def groupStep (gs : List (String × List String)) (k : String) :
    List (String × List String) :=
  match lookupMapping k with
  | some (f, v) => addToGroups gs f v
  | none => gs

/-- The `filterGroups` record built from a list of filter keys: keys
without a static mapping are skipped, mapped keys are grouped by target
column in first-occurrence order. -/
def buildGroups (keys : List String) : List (String × List String) :=
  keys.foldl groupStep []

/-- The values stored in the group for column `f` (empty when no group
for `f` exists). -/
def groupValues (gs : List (String × List String)) (f : String) : List String :=
  match gs.find? (fun g => g.1 = f) with
  | some g => g.2
  | none => []

/-- Row valuation: the value a row holds in each column. -/
def RowVal : Type := String → String

/-- Semantics of one `query.in(field, values)` clause on a row. -/
def inCondHolds (row : RowVal) (f : String) (vs : List String) : Bool :=
  vs.contains (row f)

/-- A row satisfies the grouped static-filter clauses iff it satisfies
the membership test of every group (clauses are ANDed by the query builder). -/
def matchesGrouped (keys : List String) (row : RowVal) : Bool :=
  ((buildGroups keys).filter (fun g => 0 < g.2.length)).all
    (fun g => inCondHolds row g.1 g.2)

/-- The columns targeted by the statically-mapped keys of a filter list. -/
def mappedFieldsOf (keys : List String) : List String :=
  keys.filterMap (fun k => (lookupMapping k).map Prod.fst)

/-- All mapped values of a filter list that target column `f`, in key
order. -/
def valuesFor (keys : List String) (f : String) : List String :=
  keys.filterMap
    (fun k =>
      match lookupMapping k with
      | some (f', v) => if f' = f then some v else none
      | none => none)

/-! ## Search-term sanitization (lines 294–305)

The debounced term is trimmed and every comma and parenthesis in it is
replaced by a space; then one ilike clause per searchable column is
built from it, and the clauses are joined with commas into a single
or(...) argument. -/

/-- Whitespace as recognised by JS `String.prototype.trim`. -/
def isJsSpace (c : Char) : Bool :=
  c = ' ' ∨ c = '\t' ∨ c = '\n' ∨ c = '\r' ∨ c = '\x0b' ∨ c = '\x0c'

/-- JS `trim`: strip leading and trailing whitespace. -/
def trimChars (s : List Char) : List Char :=
  ((s.dropWhile isJsSpace).reverse.dropWhile isJsSpace).reverse

/-- The regex replacement `/[,(\)]/g → ' '` applied to one character. -/
def sanitizeChar (c : Char) : Char :=
  if c = ',' ∨ c = '(' ∨ c = ')' then ' ' else c

/-- The safeTerm value: the search term trimmed and with every comma
and parenthesis replaced by a space. -/
def sanitizeTerm (s : List Char) : List Char :=
  (trimChars s).map sanitizeChar

/-- One ilike clause of the search or(...) argument, of the form
FIELD.ilike.%TERM%. -/
def ilikeClause (field : String) (safeTerm : List Char) : List Char :=
  field.toList ++ (".ilike.%".toList) ++ safeTerm ++ ("%".toList)

/-- Join of the base-field clauses with comma separators. -/
def joinComma : List (List Char) → List Char
  | [] => []
  | [c] => c
  | c :: cs => c ++ ',' :: joinComma cs

/-- Split a character list at every comma (how the backend parses the
`or(...)` argument back into individual clauses). -/
def splitCommaAux : List Char → List Char → List (List Char)
  | [], acc => [acc.reverse]
  | c :: cs, acc =>
      if c = ',' then acc.reverse :: splitCommaAux cs []
      else splitCommaAux cs (c :: acc)

/-- Split on commas, top level. -/
def splitComma (s : List Char) : List (List Char) :=
  splitCommaAux s []

/-! ## The composed query (`fetchData`, lines 242–460)

`QueryCtx` collects the inputs `fetchData` reads when it builds the
query; `buildConds` lists the clauses it attaches, in source order.
Caller-supplied custom `queryBuilder` filters are opaque functions in
the config and are outside this model; sorting and the range window are
not row predicates and are modelled with the pagination state below. -/

/-- The inputs the query construction of `fetchData` depends on.
`roleAssignmentEventIds` is the `event_id` column of the pre-filter
result of the pre-filter join (events with role filters only). -/
structure QueryCtx where
  tableName : String
  firmId : String
  profileId : Option String
  profileRole : Option String
  activeFilters : List String
  isSearchActive : Bool
  debouncedSearchTerm : List Char
  searchFields : List String
  today : String
  roleAssignmentEventIds : List String

/-- True when the profile role is Admin. -/
def QueryCtx.isAdmin (ctx : QueryCtx) : Bool :=
  ctx.profileRole = some "Admin"

/-- Scope clause (lines 247–264): firm restriction for admins and for
every table other than tasks / assignments; `assigned_to` for
non-admin tasks; staff-or-freelancer for non-admin assignments. -/
def scopeConds (ctx : QueryCtx) : List Cond :=
  if ctx.tableName = "tasks" then
    if ctx.isAdmin then [.firmEq ctx.firmId]
    else
      match ctx.profileId with
      | some uid => [.assignedToEq uid]
      | none => []
  else if ctx.tableName = "event_staff_assignments" then
    if ctx.isAdmin then [.firmEq ctx.firmId]
    else
      match ctx.profileId with
      | some uid => [.staffOrFreelancerEq uid]
      | none => []
  else [.firmEq ctx.firmId]

/-- The role filters present among the active filters (line 207). -/
def QueryCtx.roleFilters (ctx : QueryCtx) : List String :=
  ctx.activeFilters.filter (fun k => roleFilterKeys.contains k)

/-- First-occurrence deduplication (`[...new Set(xs)]`). -/
def dedupFirst (xs : List String) : List String :=
  (xs.foldl (fun acc x => if acc.contains x then acc else x :: acc) []).reverse

/-- Event-id restriction from the pre-filter join (lines 211–240 and
267–269): only for the events table with role filters active; an empty
join result is replaced by the never-matching sentinel id. -/
def eventIdConds (ctx : QueryCtx) : List Cond :=
  if ctx.tableName = "events" ∧ ctx.roleFilters ≠ [] then
    let ids := dedupFirst ctx.roleAssignmentEventIds
    let ids := if ids = [] then ["00000000-0000-0000-0000-000000000000"] else ids
    [.idIn ids]
  else []

/-- Quotation validity clauses (lines 271–292): `converted` takes
precedence and suppresses every date comparison; otherwise the query is
restricted to non-converted rows with the date window decided by
`expired` (the `valid`/`pending` branch and the default branch build
the same null-or-future clause, as in the source). -/
def quotationConds (ctx : QueryCtx) : List Cond :=
  if ctx.tableName = "quotations" then
    if ctx.activeFilters.contains "converted" then [.convertedNotNull]
    else
      .convertedIsNull ::
        (if ctx.activeFilters.contains "expired" then
          [.validUntilLt ctx.today]
        else if ctx.activeFilters.contains "valid" ∨ ctx.activeFilters.contains "pending" then
          [.validUntilNullOrGte ctx.today]
        else [.validUntilNullOrGte ctx.today])
  else []

/-- Search clauses (lines 294–305): one `or` of ilike clauses over the
searchable columns when search is active and the trimmed term nonempty,
plus a client-name clause for events and quotations. -/
def searchConds (ctx : QueryCtx) : List Cond :=
  if ctx.isSearchActive ∧ trimChars ctx.debouncedSearchTerm ≠ [] then
    let safeTerm := sanitizeTerm ctx.debouncedSearchTerm
    (if ctx.searchFields ≠ [] then [.searchOr ctx.searchFields safeTerm] else []) ++
      (if ctx.tableName = "events" ∨ ctx.tableName = "quotations" then
        [.clientNameIlike safeTerm]
      else [])
  else []

/-- The otherFilters list (lines 311–313): the active filters minus
role and staff-status keys. -/
def QueryCtx.otherFilters (ctx : QueryCtx) : List String :=
  ctx.activeFilters.filter
    (fun k => ¬ (roleFilterKeys ++ staffStatusKeys).contains k)

/-- Grouped static-filter clauses (lines 414–433): one
`query.in(field, values)` per nonempty group. -/
def groupedConds (ctx : QueryCtx) : List Cond :=
  ((buildGroups ctx.otherFilters).filter (fun g => 0 < g.2.length)).map
    (fun g => .fieldIn g.1 g.2)

/-- All clauses `fetchData` itself attaches to the query, in source
order. -/
def buildConds (ctx : QueryCtx) : List Cond :=
  scopeConds ctx ++ eventIdConds ctx ++ quotationConds ctx ++
    searchConds ctx ++ groupedConds ctx

/-- Does a condition compare the `valid_until` column against a date? -/
def mentionsValidUntil : Cond → Bool
  | .validUntilLt _ => true
  | .validUntilNullOrGte _ => true
  | _ => false

/-- Is a condition a workspace (`firm_id`) restriction? -/
def isFirmCond : Cond → Bool
  | .firmEq _ => true
  | _ => false

/-! ## Pagination / load state (lines 172–184, 462–550)

The pagination-relevant slice of the hook state.  Rows are modelled
as their server-side indices under the active filter/sort, so a fetch
of the window `[page*pageSize, page*pageSize + pageSize - 1]` over
`total` matching rows returns the corresponding slice of
`List.range total`. -/

/-- The hook state touched by pagination, fetching and the
filter-change effects. -/
structure PagState where
  data : List Nat
  loading : Bool
  isFirstLoad : Bool
  paginationLoading : Bool
  isSearchActive : Bool
  debouncedSearchTerm : String
  activeFilters : List String
  sortBy : String
  sortOrderAsc : Bool
  totalCount : Nat
  currentPage : Nat
  allDataLoaded : Bool
  pageSize : Nat
deriving DecidableEq, Repr

/-- Initial state on mount (`useState` initialisers; `pageSize` from
options/config). -/
def initialState (pageSize : Nat) : PagState :=
  { data := []
    loading := true
    isFirstLoad := true
    paginationLoading := false
    isSearchActive := false
    debouncedSearchTerm := ""
    activeFilters := []
    sortBy := "created_at"
    sortOrderAsc := false
    totalCount := 0
    currentPage := 0
    allDataLoaded := false
    pageSize := pageSize }

/-- The row window `query.range(from, to)` returns when `total` rows
match: `from = currentPage * pageSize`, length at most `pageSize`. -/
def fetchResult (total : Nat) (s : PagState) : List Nat :=
  ((List.range total).drop (s.currentPage * s.pageSize)).take s.pageSize

/-- Loading flags set at the top of `fetchData` (lines 196–204):
pagination fetches raise `paginationLoading`; a non-append fetch raises
the skeleton `loading` flag only on the very first load with an empty
buffer. -/
def beginFetch (append isPagination : Bool) (s : PagState) : PagState :=
  if isPagination then { s with paginationLoading := true }
  else if ¬append ∧ s.isFirstLoad ∧ s.data.length = 0 then { s with loading := true }
  else s

/-- Successful completion of `fetchData` (lines 470–511): store or
append the page, record the server count, recompute `allDataLoaded`
from the returned row count, clear `isFirstLoad`, and release the
loading flag of the flavour of this fetch. -/
def finishFetch (total : Nat) (append isPagination : Bool) (s : PagState) : PagState :=
  let result := fetchResult total s
  { s with
    data := if append then s.data ++ result else result
    totalCount := total
    allDataLoaded := decide (result.length < s.pageSize)
    isFirstLoad := false
    paginationLoading := if isPagination then false else s.paginationLoading
    loading := if isPagination then s.loading else false }

/-- The fetch effect (lines 546–550): a page change triggers
`fetchData(false, isPagination)` with
`isPagination = currentPage > 0 && data.length > 0`.  `pageIsPagination`
is that flag, read from the state at effect time. -/
def pageIsPagination (s : PagState) : Bool :=
  decide (0 < s.currentPage) && decide (0 < s.data.length)

/-- One complete fetch cycle as dispatched by the fetch effect: begin
with the flags the effect computes, then finish successfully against `total`
matching rows. -/
def runPageFetch (total : Nat) (s : PagState) : PagState :=
  finishFetch total false (pageIsPagination s) (beginFetch false (pageIsPagination s) s)

/-- Function loadMore (lines 514–518): advance the page only when not
all data is loaded and the general `loading` flag is down. -/
def loadMore (s : PagState) : PagState :=
  if ¬s.allDataLoaded ∧ ¬s.loading then { s with currentPage := s.currentPage + 1 }
  else s

/-- Function resetPagination (lines 520–523). -/
def resetPagination (s : PagState) : PagState :=
  { s with currentPage := 0, allDataLoaded := false }

/-- Ceiling division Math.ceil(a / b) on naturals (for positive b). -/
def ceilDivNat (a b : Nat) : Nat := (a + b - 1) / b

/-- The maxPage value Math.ceil(totalCount / pageSize) - 1 as an
integer, as computed by goToPage. -/
def maxPageI (s : PagState) : Int :=
  (ceilDivNat s.totalCount s.pageSize : Int) - 1

/-- The clamped page Math.max(0, Math.min(page, maxPage)). -/
def validPageI (n : Int) (s : PagState) : Int :=
  max 0 (min n (maxPageI s))

/-- Function goToPage (lines 525–533).  The returned flag records whether a
new fetch is dispatched: the fetch effect is keyed on `currentPage`
(and on `fetchData`, whose dependencies `goToPage` never touches), so a
fetch fires exactly when `setCurrentPage` stores a different page. -/
def goToPage (n : Int) (s : PagState) : PagState × Bool :=
  if validPageI n s ≠ (s.currentPage : Int) ∧ 0 < s.totalCount then
    ({ s with currentPage := (validPageI n s).toNat, allDataLoaded := false }, true)
  else (s, false)

/-- The filter-change effect (lines 541–544): whenever the search-active
flag, debounced term, active filters, sort key or sort direction change,
the effect stores the new values and calls `resetPagination`. -/
def applyFilterDeps (s : PagState) (act : Bool) (term : String)
    (filters : List String) (sb : String) (asc : Bool) : PagState :=
  resetPagination
    { s with
      isSearchActive := act
      debouncedSearchTerm := term
      activeFilters := filters
      sortBy := sb
      sortOrderAsc := asc }

/-- A realtime change notification (lines 553–570) calls
`resetPagination`.  The returned flag records whether a new fetch is
dispatched: the fetch effect depends only on `currentPage` and
`fetchData`, and the dependency list of `fetchData` does not include
`allDataLoaded`, so a fetch fires exactly when the stored page actually
changes. -/
def realtimeInvalidate (s : PagState) : PagState × Bool :=
  let s' := resetPagination s
  (s', decide (s'.currentPage ≠ s.currentPage))

/-! ## Concrete scenario states

The `pageSize = 50`, 120-matching-rows scenario: mount-time fetch of
page 0, then successive `loadMore`-triggered fetch cycles. -/

/-- State after the mount-time fetch of page 0 (50 rows). -/
def scenPage0 : PagState := runPageFetch 120 (initialState 50)

/-- State after `loadMore` and the page-1 fetch (50 rows). -/
def scenPage1 : PagState := runPageFetch 120 (loadMore scenPage0)

/-- State after `loadMore` and the page-2 fetch (20 rows). -/
def scenPage2 : PagState := runPageFetch 120 (loadMore scenPage1)

/-- The in-flight moment of the page-1 fetch: `loadMore` has advanced
the page and the fetch effect has raised `paginationLoading`, but the
fetch has not completed yet. -/
def scenPage1InFlight : PagState :=
  beginFetch false (pageIsPagination (loadMore scenPage0)) (loadMore scenPage0)

/-- Concrete state for witness instantiations: a populated controller
mid-scroll with both loading flags raised. -/
def witnessBusyState : PagState :=
  { initialState 50 with
    data := List.range 50
    loading := true
    paginationLoading := true
    currentPage := 3
    totalCount := 120
    allDataLoaded := true }

/-- Concrete state for witness instantiations: idle controller over 120
matching rows. -/
def witnessIdleState : PagState :=
  { initialState 50 with
    data := List.range 50
    loading := false
    isFirstLoad := false
    totalCount := 120 }

/-- Concrete query context for witness instantiations: quotations table
with both `converted` and `expired` active. -/
def witnessQuotationCtx : QueryCtx :=
  { tableName := "quotations"
    firmId := "firm-1"
    profileId := some "user-1"
    profileRole := some "Admin"
    activeFilters := ["converted", "expired"]
    isSearchActive := false
    debouncedSearchTerm := []
    searchFields := ["quotation_number"]
    today := "2026-10-12"
    roleAssignmentEventIds := [] }

/-- Concrete query context for witness instantiations: tasks table
queried by a non-admin staff member. -/
def witnessTasksCtx : QueryCtx :=
  { tableName := "tasks"
    firmId := "firm-1"
    profileId := some "user-1"
    profileRole := some "Editor"
    activeFilters := ["completed", "pending"]
    isSearchActive := true
    debouncedSearchTerm := "edit".toList
    searchFields := ["title"]
    today := "2026-10-12"
    roleAssignmentEventIds := [] }

/-- Concrete query context for witness instantiations: assignments table
queried by a non-admin freelancer. -/
def witnessAssignCtx : QueryCtx :=
  { witnessTasksCtx with tableName := "event_staff_assignments" }

/-! # Theorems -/

/-- C2: after every successful fetch, `allDataLoaded` is true if and
only if the fetch returned strictly fewer rows than the requested page
size. -/
theorem c2_allDataLoaded_iff_short_page (total : Nat) (append isPagination : Bool)
    (s : PagState) :
    (finishFetch total append isPagination s).allDataLoaded = true ↔
      (fetchResult total s).length < s.pageSize := by
  simp [finishFetch]

/-- C1 (evaluation of the code at the claimed scenario): with
`pageSize = 50` over 120 matching rows, the mount fetch and two
`loadMore`-triggered fetch cycles return pages of sizes 50, 50 and 20,
and `allDataLoaded` becomes true only after the 20-row page; but each
fetch cycle replaces the row buffer (the fetch effect always calls
`fetchData(false, isPagination)`, so the append branch of `fetchData` is
never taken), hence the final buffer holds 20 rows, not 120, and a
further `loadMore` is a no-op. -/
theorem c1_loadMore_replaces_buffer :
    (fetchResult 120 (initialState 50)).length = 50 ∧
    (fetchResult 120 (loadMore scenPage0)).length = 50 ∧
    (fetchResult 120 (loadMore scenPage1)).length = 20 ∧
    scenPage0.allDataLoaded = false ∧
    scenPage1.allDataLoaded = false ∧
    scenPage2.allDataLoaded = true ∧
    scenPage1.data.length = 50 ∧
    scenPage2.data.length = 20 ∧
    scenPage2.data ≠ List.range 120 ∧
    loadMore scenPage2 = scenPage2 := by
  decide

/-- C3: `goToPage(n)` clamps `n` to
`[0, ceil(totalCount / pageSize) - 1]`; when the clamped page equals
the current page it changes no state and dispatches no fetch, and
otherwise it stores the clamped page, clears `allDataLoaded` and
dispatches one fetch. -/
theorem c3_goToPage_clamps (s : PagState) (n : Int)
    (hps : 0 < s.pageSize) (htc : 0 < s.totalCount) :
    (0 ≤ validPageI n s ∧
      (validPageI n s).toNat ≤ ceilDivNat s.totalCount s.pageSize - 1) ∧
    (validPageI n s = (s.currentPage : Int) → goToPage n s = (s, false)) ∧
    (validPageI n s ≠ (s.currentPage : Int) →
      goToPage n s =
        ({ s with currentPage := (validPageI n s).toNat, allDataLoaded := false },
          true)) := by
  have hC : 1 ≤ ceilDivNat s.totalCount s.pageSize := by
    rw [ceilDivNat, Nat.le_div_iff_mul_le hps]
    omega
  refine ⟨⟨?_, ?_⟩, ?_, ?_⟩
  · unfold validPageI
    omega
  · unfold validPageI maxPageI
    omega
  · intro h
    rw [goToPage, if_neg]
    simp [h]
  · intro h
    rw [goToPage, if_pos ⟨h, htc⟩]

/-- C3 witness: instantiation at a concrete idle state and page
request. -/
theorem c3_goToPage_clamps_witness :
    (0 ≤ validPageI 100 witnessIdleState ∧
      (validPageI 100 witnessIdleState).toNat ≤
        ceilDivNat witnessIdleState.totalCount witnessIdleState.pageSize - 1) ∧
    (validPageI 100 witnessIdleState = (witnessIdleState.currentPage : Int) →
      goToPage 100 witnessIdleState = (witnessIdleState, false)) ∧
    (validPageI 100 witnessIdleState ≠ (witnessIdleState.currentPage : Int) →
      goToPage 100 witnessIdleState =
        ({ witnessIdleState with
            currentPage := (validPageI 100 witnessIdleState).toNat,
            allDataLoaded := false }, true)) :=
  c3_goToPage_clamps witnessIdleState 100 (by decide) (by decide)

/-- C7: every change of the search-active flag, debounced search term,
active filter set, sort key or sort direction resets `currentPage` to 0
and `allDataLoaded` to false, whatever the rest of the state (loading
flags included) holds. -/
theorem c7_filter_change_resets (s : PagState) (act : Bool) (term : String)
    (filters : List String) (sb : String) (asc : Bool)
    (_hchange : act ≠ s.isSearchActive ∨ term ≠ s.debouncedSearchTerm ∨
      filters ≠ s.activeFilters ∨ sb ≠ s.sortBy ∨ asc ≠ s.sortOrderAsc) :
    (applyFilterDeps s act term filters sb asc).currentPage = 0 ∧
    (applyFilterDeps s act term filters sb asc).allDataLoaded = false := by
  simp [applyFilterDeps, resetPagination]

/-- C7 witness: a sort-direction change on a state whose fetch is in
flight (both loading flags raised) still resets the pagination. -/
theorem c7_filter_change_resets_witness :
    (applyFilterDeps witnessBusyState false "" [] "created_at" true).currentPage = 0 ∧
    (applyFilterDeps witnessBusyState false "" [] "created_at" true).allDataLoaded = false :=
  c7_filter_change_resets witnessBusyState false "" [] "created_at" true
    (Or.inr (Or.inr (Or.inr (Or.inr (by decide)))))

/-- C8 counterexample: in the reachable state where the page-1 append
fetch is still in flight (`paginationLoading = true`), `loadMore`
nevertheless advances the page — so an append load *is* initiated while
a pagination load is in progress, refuting the claim that `loadMore`
only proceeds when no load of any flavour is in flight. -/
theorem c8_counterexample_loadMore_during_pagination :
    scenPage1InFlight.paginationLoading = true ∧
    scenPage1InFlight.loading = false ∧
    scenPage1InFlight.allDataLoaded = false ∧
    (loadMore scenPage1InFlight).currentPage = scenPage1InFlight.currentPage + 1 := by
  decide

/-- C8 (amended): `loadMore` advances the page exactly when
`allDataLoaded` is false and the general `loading` flag (raised only by
a first/full load) is false; it does not consult `paginationLoading`,
and whenever `allDataLoaded` or `loading` holds it changes nothing. -/
theorem c8_loadMore_guard (s : PagState) :
    ((loadMore s).currentPage = s.currentPage + 1 ↔
      s.allDataLoaded = false ∧ s.loading = false) ∧
    (s.allDataLoaded = true ∨ s.loading = true → loadMore s = s) := by
  cases hA : s.allDataLoaded <;> cases hL : s.loading <;>
    simp [loadMore, hA, hL]

/-- C8 (amended) witness: on a state with all data loaded, `loadMore`
changes nothing. -/
theorem c8_loadMore_guard_witness : loadMore witnessBusyState = witnessBusyState :=
  (c8_loadMore_guard witnessBusyState).2 (Or.inl (by decide))

/-- C10: a realtime invalidation arriving while `currentPage` is
already 0 only forces `allDataLoaded` to false — the page, the row
buffer and everything else are untouched — and dispatches no new fetch,
because the fetch effect is keyed on `currentPage`. -/
theorem c10_invalidate_at_page_zero (s : PagState) (h : s.currentPage = 0) :
    (realtimeInvalidate s).1 = { s with allDataLoaded := false } ∧
    (realtimeInvalidate s).2 = false := by
  cases s
  simp_all [realtimeInvalidate, resetPagination]

/-- C10 witness: instantiation at a concrete page-0 state. -/
theorem c10_invalidate_at_page_zero_witness :
    (realtimeInvalidate witnessIdleState).1 =
      { witnessIdleState with allDataLoaded := false } ∧
    (realtimeInvalidate witnessIdleState).2 = false :=
  c10_invalidate_at_page_zero witnessIdleState (by decide)

/-! ### Shape of the clauses each section of `fetchData` can emit -/

/-- Every search clause is an ilike clause (never a firm or date
condition). -/
theorem searchConds_shape (ctx : QueryCtx) :
    ∀ c ∈ searchConds ctx,
      (∃ fs t, c = Cond.searchOr fs t) ∨ ∃ t, c = Cond.clientNameIlike t := by
  intro c hc
  unfold searchConds at hc
  split at hc
  · rcases List.mem_append.mp hc with h | h
    · split at h
      · simp at h
        exact Or.inl ⟨_, _, h⟩
      · simp at h
    · split at h
      · simp at h
        exact Or.inr ⟨_, h⟩
      · simp at h
  · simp at hc

/-- Every grouped static-filter clause is a column-membership clause. -/
theorem groupedConds_shape (ctx : QueryCtx) :
    ∀ c ∈ groupedConds ctx, ∃ f vs, c = Cond.fieldIn f vs := by
  intro c hc
  unfold groupedConds at hc
  rcases List.mem_map.mp hc with ⟨g, _, rfl⟩
  exact ⟨g.1, g.2, rfl⟩

/-- The pre-filter join emits clauses only for the events table. -/
theorem eventIdConds_eq_nil (ctx : QueryCtx) (h : ctx.tableName ≠ "events") :
    eventIdConds ctx = [] := by
  unfold eventIdConds
  rw [if_neg]
  rintro ⟨h', -⟩
  exact h h'

/-- The quotation-validity section emits clauses only for the
quotations table. -/
theorem quotationConds_eq_nil (ctx : QueryCtx) (h : ctx.tableName ≠ "quotations") :
    quotationConds ctx = [] := by
  unfold quotationConds
  rw [if_neg h]

/-- C5: for the quotations table, whenever `converted` is active
(whether or not `expired` is also active), the validity section emits
exactly the converted predicate, and the whole composed query contains
no `valid_until` date comparison; whenever `converted` is not active,
the query restricts to non-converted rows, with `expired` selecting
`valid_until < today` and any other combination (valid, pending, or no
status filter) selecting `valid_until` null-or-`≥ today`. -/
theorem c5_quotation_mutual_exclusion (ctx : QueryCtx)
    (ht : ctx.tableName = "quotations") :
    (ctx.activeFilters.contains "converted" = true →
      quotationConds ctx = [Cond.convertedNotNull] ∧
      ∀ c ∈ buildConds ctx, mentionsValidUntil c = false) ∧
    (ctx.activeFilters.contains "converted" = false →
      (ctx.activeFilters.contains "expired" = true →
        quotationConds ctx = [Cond.convertedIsNull, Cond.validUntilLt ctx.today]) ∧
      (ctx.activeFilters.contains "expired" = false →
        quotationConds ctx =
          [Cond.convertedIsNull, Cond.validUntilNullOrGte ctx.today])) := by
  constructor
  · intro hconv
    have hquot : quotationConds ctx = [Cond.convertedNotNull] := by
      unfold quotationConds
      rw [if_pos ht, if_pos hconv]
    refine ⟨hquot, ?_⟩
    intro c hc
    unfold buildConds at hc
    simp only [List.mem_append] at hc
    rcases hc with ((((hc | hc) | hc) | hc) | hc)
    · unfold scopeConds at hc
      rw [ht] at hc
      simp only [if_neg (by decide : ¬("quotations" = "tasks")),
        if_neg (by decide : ¬("quotations" = "event_staff_assignments"))] at hc
      simp at hc
      subst hc
      rfl
    · rw [eventIdConds_eq_nil ctx (by rw [ht]; decide)] at hc
      simp at hc
    · rw [hquot] at hc
      simp at hc
      subst hc
      rfl
    · rcases searchConds_shape ctx c hc with ⟨fs, t, rfl⟩ | ⟨t, rfl⟩ <;> rfl
    · rcases groupedConds_shape ctx c hc with ⟨f, vs, rfl⟩
      rfl
  · intro hconv
    constructor
    · intro hexp
      unfold quotationConds
      rw [if_pos ht, if_neg (by rw [hconv]; decide), if_pos hexp]
    · intro hexp
      unfold quotationConds
      rw [if_pos ht, if_neg (by rw [hconv]; decide), if_neg (by rw [hexp]; decide)]
      split <;> rfl

/-- C5 witness: with both `converted` and `expired` active on the
quotations table, the validity section is exactly the converted
predicate and no clause of the composed query compares `valid_until`. -/
theorem c5_quotation_mutual_exclusion_witness :
    quotationConds witnessQuotationCtx = [Cond.convertedNotNull] ∧
    ∀ c ∈ buildConds witnessQuotationCtx, mentionsValidUntil c = false :=
  (c5_quotation_mutual_exclusion witnessQuotationCtx rfl).1 (by decide)

/-- C9: for the tasks and assignments tables queried by a non-admin
user, the scope clause is solely the assigned-to (resp.
staff-or-freelancer) restriction, and the composed query contains no
workspace (`firm_id`) restriction at all. -/
theorem c9_non_admin_no_firm_scope (ctx : QueryCtx) (uid : String)
    (hrole : ctx.profileRole ≠ some "Admin") (hid : ctx.profileId = some uid) :
    (ctx.tableName = "tasks" →
      scopeConds ctx = [Cond.assignedToEq uid] ∧
      ∀ c ∈ buildConds ctx, isFirmCond c = false) ∧
    (ctx.tableName = "event_staff_assignments" →
      scopeConds ctx = [Cond.staffOrFreelancerEq uid] ∧
      ∀ c ∈ buildConds ctx, isFirmCond c = false) := by
  have hadmin : ctx.isAdmin = false := by
    simp [QueryCtx.isAdmin, hrole]
  constructor
  · intro ht
    have hscope : scopeConds ctx = [Cond.assignedToEq uid] := by
      unfold scopeConds
      rw [ht]
      simp [hadmin, hid]
    refine ⟨hscope, ?_⟩
    intro c hc
    unfold buildConds at hc
    simp only [List.mem_append] at hc
    rcases hc with ((((hc | hc) | hc) | hc) | hc)
    · rw [hscope] at hc
      simp at hc
      subst hc
      rfl
    · rw [eventIdConds_eq_nil ctx (by rw [ht]; decide)] at hc
      simp at hc
    · rw [quotationConds_eq_nil ctx (by rw [ht]; decide)] at hc
      simp at hc
    · rcases searchConds_shape ctx c hc with ⟨fs, t, rfl⟩ | ⟨t, rfl⟩ <;> rfl
    · rcases groupedConds_shape ctx c hc with ⟨f, vs, rfl⟩
      rfl
  · intro ht
    have hscope : scopeConds ctx = [Cond.staffOrFreelancerEq uid] := by
      unfold scopeConds
      rw [ht]
      simp [hadmin, hid]
    refine ⟨hscope, ?_⟩
    intro c hc
    unfold buildConds at hc
    simp only [List.mem_append] at hc
    rcases hc with ((((hc | hc) | hc) | hc) | hc)
    · rw [hscope] at hc
      simp at hc
      subst hc
      rfl
    · rw [eventIdConds_eq_nil ctx (by rw [ht]; decide)] at hc
      simp at hc
    · rw [quotationConds_eq_nil ctx (by rw [ht]; decide)] at hc
      simp at hc
    · rcases searchConds_shape ctx c hc with ⟨fs, t, rfl⟩ | ⟨t, rfl⟩ <;> rfl
    · rcases groupedConds_shape ctx c hc with ⟨f, vs, rfl⟩
      rfl

/-- C9 witness: a non-admin editor querying tasks gets only the
assigned-to scope, with no firm restriction anywhere in the composed
query. -/
theorem c9_non_admin_no_firm_scope_witness :
    scopeConds witnessTasksCtx = [Cond.assignedToEq "user-1"] ∧
    ∀ c ∈ buildConds witnessTasksCtx, isFirmCond c = false :=
  (c9_non_admin_no_firm_scope witnessTasksCtx "user-1" (by decide) rfl).1 rfl

/-! ### Sanitization lemmas (C6) -/

/-- The character replacement never produces a comma or parenthesis. -/
theorem sanitizeChar_not_banned (c : Char) :
    sanitizeChar c ≠ ',' ∧ sanitizeChar c ≠ '(' ∧ sanitizeChar c ≠ ')' := by
  unfold sanitizeChar
  split
  · exact ⟨by decide, by decide, by decide⟩
  · rename_i h
    push_neg at h
    exact h

/-- The sanitized term contains no comma or parenthesis. -/
theorem sanitizeTerm_not_banned (t : List Char) :
    ',' ∉ sanitizeTerm t ∧ '(' ∉ sanitizeTerm t ∧ ')' ∉ sanitizeTerm t := by
  refine ⟨?_, ?_, ?_⟩ <;>
    · intro hmem
      rcases List.mem_map.mp hmem with ⟨c, -, hc⟩
      rcases sanitizeChar_not_banned c with ⟨h1, h2, h3⟩
      simp_all

/-- Splitting a comma-free chunk yields that single chunk (with the
accumulator prepended). -/
theorem splitCommaAux_no_comma (l : List Char) :
    ∀ acc, ',' ∉ l → splitCommaAux l acc = [acc.reverse ++ l] := by
  induction l with
  | nil => intro acc _; simp [splitCommaAux]
  | cons c cs ih =>
      intro acc h
      have hc : c ≠ ',' := fun hcc => h (hcc ▸ List.mem_cons_self c cs)
      have hcs : ',' ∉ cs := fun hm => h (List.mem_cons_of_mem c hm)
      rw [splitCommaAux, if_neg hc, ih (c :: acc) hcs]
      simp

/-- Splitting past a comma-free chunk followed by a comma peels off
exactly that chunk. -/
theorem splitCommaAux_chunk (l : List Char) :
    ∀ acc rest, ',' ∉ l →
      splitCommaAux (l ++ ',' :: rest) acc =
        (acc.reverse ++ l) :: splitCommaAux rest [] := by
  induction l with
  | nil =>
      intro acc rest _
      simp [splitCommaAux]
  | cons c cs ih =>
      intro acc rest h
      have hc : c ≠ ',' := fun hcc => h (hcc ▸ List.mem_cons_self c cs)
      have hcs : ',' ∉ cs := fun hm => h (List.mem_cons_of_mem c hm)
      rw [List.cons_append, splitCommaAux, if_neg hc, ih (c :: acc) rest hcs]
      simp

/-- Unfolding equation of `joinComma` on a two-or-more-element list. -/
theorem joinComma_cons_cons (c c' : List Char) (cs : List (List Char)) :
    joinComma (c :: c' :: cs) = c ++ ',' :: joinComma (c' :: cs) := rfl

/-- Joining comma-free clauses with commas and splitting on commas
recovers exactly the clauses: the composed `or(...)` argument parses
back into the intended predicates. -/
theorem splitComma_joinComma (ls : List (List Char)) (hne : ls ≠ [])
    (h : ∀ l ∈ ls, ',' ∉ l) : splitComma (joinComma ls) = ls := by
  induction ls with
  | nil => exact absurd rfl hne
  | cons c cs ih =>
      cases cs with
      | nil =>
          rw [joinComma, splitComma, splitCommaAux_no_comma c []
            (h c (List.mem_cons_self c []))]
          simp
      | cons c' cs' =>
          rw [joinComma_cons_cons, splitComma,
            splitCommaAux_chunk c [] (joinComma (c' :: cs'))
              (h c (List.mem_cons_self c (c' :: cs')))]
          have := ih (List.cons_ne_nil c' cs') (fun l hl => h l (List.mem_cons_of_mem c hl))
          rw [splitComma] at this
          rw [this]
          simp

/-- C6 counterexample: sanitizing the spec's example term
`"John, (Doe)"` yields `"John   Doe "` — three spaces between the words
and a trailing space — not the claimed `"John  Doe"`. -/
theorem c6_counterexample_sanitize_example :
    sanitizeTerm ("John, (Doe)".toList) = "John   Doe ".toList ∧
    "John   Doe ".toList ≠ "John  Doe".toList := by
  decide

/-- C6 (amended): for every search term, the sanitized term contains no
comma and no parenthesis (each such character of the trimmed term is
replaced by one space, so `"John, (Doe)"` becomes `"John   Doe "`), and
the composed search argument — the per-column ilike clauses joined with
commas — splits back into exactly those clauses, so composing the
search query cannot confuse the clause separators. -/
theorem c6_sanitized_search (term : List Char) (fields : List String)
    (hne : fields ≠ []) (hf : ∀ f ∈ fields, ',' ∉ f.toList) :
    (',' ∉ sanitizeTerm term ∧ '(' ∉ sanitizeTerm term ∧ ')' ∉ sanitizeTerm term) ∧
    splitComma
        (joinComma (fields.map (fun f => ilikeClause f (sanitizeTerm term)))) =
      fields.map (fun f => ilikeClause f (sanitizeTerm term)) := by
  refine ⟨sanitizeTerm_not_banned term, ?_⟩
  refine splitComma_joinComma _ (by simpa using hne) ?_
  intro l hl
  rcases List.mem_map.mp hl with ⟨f, hfmem, rfl⟩
  unfold ilikeClause
  intro hmem
  simp only [List.mem_append] at hmem
  rcases hmem with ((hmem | hmem) | hmem) | hmem
  · exact hf f hfmem hmem
  · revert hmem
    decide
  · exact (sanitizeTerm_not_banned term).1 hmem
  · revert hmem
    decide

/-! ### Grouping lemmas (C4) -/

/-- Value of groupValues on the empty record. -/
theorem groupValues_nil (f : String) :
    groupValues [] f = [] := rfl

/-- Evaluation of groupValues against the head group first. -/
theorem groupValues_cons (g : String × List String)
    (gs : List (String × List String)) (f : String) :
    groupValues (g :: gs) f = if g.1 = f then g.2 else groupValues gs f := by
  by_cases h : g.1 = f <;> simp [groupValues, List.find?_cons, h]

/-- Inserting a value for column `f` appends it to `f`'s group and
leaves every other group's values unchanged. -/
theorem groupValues_addToGroups (gs : List (String × List String))
    (f v : String) : ∀ f',
    groupValues (addToGroups gs f v) f' =
      if f' = f then groupValues gs f' ++ [v] else groupValues gs f' := by
  induction gs with
  | nil =>
      intro f'
      by_cases h : f' = f
      · subst h
        simp [addToGroups, groupValues_cons, groupValues_nil]
      · have h' : ¬(f = f') := fun hh => h hh.symm
        simp [addToGroups, groupValues_cons, groupValues_nil, h, h']
  | cons g gs ih =>
      intro f'
      by_cases hg : g.1 = f
      · rw [addToGroups, if_pos hg]
        by_cases h : f' = f
        · subst h
          simp [groupValues_cons, hg]
        · have hne : ¬(g.1 = f') := fun hh => h ((hh.symm.trans hg : f' = f))
          simp [groupValues_cons, hne, h]
      · rw [addToGroups, if_neg hg]
        by_cases hgf : g.1 = f'
        · have h : ¬(f' = f) := fun hh => hg (hgf.trans hh)
          simp [groupValues_cons, hgf, h]
        · by_cases h : f' = f
          · subst h
            simp [groupValues_cons, hgf, hg, ih f']
          · simp [groupValues_cons, hgf, hg, h, ih f']

/-- A column has a group after an insertion iff it had one before or it
is the inserted column. -/
theorem mem_fields_addToGroups (gs : List (String × List String))
    (f v : String) : ∀ f',
    f' ∈ (addToGroups gs f v).map Prod.fst ↔
      f' ∈ gs.map Prod.fst ∨ f' = f := by
  induction gs with
  | nil =>
      intro f'
      simp [addToGroups]
  | cons g gs ih =>
      intro f'
      by_cases hg : g.1 = f
      · rw [addToGroups, if_pos hg]
        simp only [List.map_cons, List.mem_cons]
        constructor
        · rintro (h | h)
          · exact Or.inl (Or.inl h)
          · exact Or.inl (Or.inr h)
        · rintro ((h | h) | h)
          · exact Or.inl h
          · exact Or.inr h
          · exact Or.inl (h ▸ hg.symm)
      · rw [addToGroups, if_neg hg]
        simp only [List.map_cons, List.mem_cons, ih f']
        tauto

/-- Insertion preserves the one-group-per-column invariant. -/
theorem nodup_fields_addToGroups (gs : List (String × List String))
    (f v : String) (h : (gs.map Prod.fst).Nodup) :
    ((addToGroups gs f v).map Prod.fst).Nodup := by
  induction gs with
  | nil => simp [addToGroups]
  | cons g gs ih =>
      rw [List.map_cons, List.nodup_cons] at h
      by_cases hg : g.1 = f
      · rw [addToGroups, if_pos hg]
        simpa [List.nodup_cons] using h
      · rw [addToGroups, if_neg hg]
        rw [List.map_cons, List.nodup_cons]
        refine ⟨?_, ih h.2⟩
        rw [mem_fields_addToGroups]
        rintro (hmem | hmem)
        · exact h.1 hmem
        · exact hg hmem

/-- Walking a key list accumulates, per column, exactly the mapped
values of those keys, in key order, behind whatever the record already
held. -/
theorem groupValues_foldl (keys : List String) :
    ∀ (gs : List (String × List String)) (f : String),
      groupValues (keys.foldl groupStep gs) f =
        groupValues gs f ++ valuesFor keys f := by
  induction keys with
  | nil =>
      intro gs f
      simp [valuesFor]
  | cons k keys ih =>
      intro gs f
      rw [List.foldl_cons, ih (groupStep gs k) f]
      unfold valuesFor
      rw [List.filterMap_cons]
      unfold groupStep
      cases hmap : lookupMapping k with
      | none => rfl
      | some p =>
          obtain ⟨pf, pv⟩ := p
          rw [groupValues_addToGroups gs pf pv f]
          by_cases h : pf = f
          · subst h
            simp [valuesFor]
          · rw [if_neg (fun hh : f = pf => h hh.symm)]
            simp [valuesFor, h]

/-- Unfolding equation of `mappedFieldsOf` on a nonempty key list. -/
theorem mappedFieldsOf_cons (k : String) (keys : List String) :
    mappedFieldsOf (k :: keys) =
      match lookupMapping k with
      | some p => p.1 :: mappedFieldsOf keys
      | none => mappedFieldsOf keys := by
  unfold mappedFieldsOf
  rw [List.filterMap_cons]
  cases h : lookupMapping k <;> simp

/-- A column has a group after the walk iff the record already had one
or some key maps to that column. -/
theorem mem_fields_foldl (keys : List String) :
    ∀ (gs : List (String × List String)) (f : String),
      f ∈ (keys.foldl groupStep gs).map Prod.fst ↔
        f ∈ gs.map Prod.fst ∨ f ∈ mappedFieldsOf keys := by
  induction keys with
  | nil =>
      intro gs f
      simp [mappedFieldsOf]
  | cons k keys ih =>
      intro gs f
      rw [List.foldl_cons, ih (groupStep gs k) f, mappedFieldsOf_cons]
      unfold groupStep
      cases hmap : lookupMapping k with
      | none => rfl
      | some p =>
          rw [mem_fields_addToGroups gs p.1 p.2 f]
          simp only [List.mem_cons]
          tauto

/-- The walk preserves the one-group-per-column invariant. -/
theorem nodup_fields_foldl (keys : List String) :
    ∀ gs : List (String × List String),
      (gs.map Prod.fst).Nodup → ((keys.foldl groupStep gs).map Prod.fst).Nodup := by
  induction keys with
  | nil => exact fun gs h => h
  | cons k keys ih =>
      intro gs h
      rw [List.foldl_cons]
      refine ih (groupStep gs k) ?_
      unfold groupStep
      cases lookupMapping k with
      | none => exact h
      | some p => exact nodup_fields_addToGroups gs p.1 p.2 h

/-- Each column of `buildGroups` appears in exactly one group. -/
theorem nodup_fields_buildGroups (keys : List String) :
    ((buildGroups keys).map Prod.fst).Nodup :=
  nodup_fields_foldl keys [] (by simp)

/-- The group of column `f` in `buildGroups keys` holds exactly the
mapped values of the keys targeting `f`. -/
theorem groupValues_buildGroups (keys : List String) (f : String) :
    groupValues (buildGroups keys) f = valuesFor keys f := by
  rw [buildGroups, groupValues_foldl keys [] f, groupValues_nil]
  rfl

/-- Existence of a group for `f` iff some key statically maps to
column `f`. -/
theorem mem_fields_buildGroups (keys : List String) (f : String) :
    f ∈ (buildGroups keys).map Prod.fst ↔ f ∈ mappedFieldsOf keys := by
  rw [buildGroups, mem_fields_foldl keys [] f]
  simp

/-- Under the one-group-per-column invariant, a group's stored values
are `groupValues` of its column. -/
theorem values_eq_groupValues_of_mem (gs : List (String × List String))
    (hnd : (gs.map Prod.fst).Nodup) :
    ∀ g ∈ gs, groupValues gs g.1 = g.2 := by
  induction gs with
  | nil => intro g hg; simp at hg
  | cons g0 gs ih =>
      rw [List.map_cons, List.nodup_cons] at hnd
      intro g hg
      rcases List.mem_cons.mp hg with rfl | hg'
      · rw [groupValues_cons, if_pos rfl]
      · have hne : ¬(g0.1 = g.1) := by
          intro hh
          exact hnd.1 (hh ▸ List.mem_map_of_mem Prod.fst hg')
        rw [groupValues_cons, if_neg hne]
        exact ih hnd.2 g hg'

/-- A column targeted by some key has at least one mapped value. -/
theorem valuesFor_ne_nil (keys : List String) (f : String)
    (h : f ∈ mappedFieldsOf keys) : valuesFor keys f ≠ [] := by
  unfold mappedFieldsOf at h
  rcases List.mem_filterMap.mp h with ⟨k, hk, hopt⟩
  rcases Option.map_eq_some.mp hopt with ⟨p, hp, hpf⟩
  refine List.ne_nil_of_mem (a := p.2) ?_
  unfold valuesFor
  refine List.mem_filterMap.mpr ⟨k, hk, ?_⟩
  rw [hp]
  simp [hpf]

/-- Characterization of the grouped static-filter semantics: a row
passes the grouped clauses iff, for every column some active key maps
to, the row's value in that column is one of the mapped values — OR
within a column, AND across columns. -/
theorem matchesGrouped_iff (keys : List String) (row : RowVal) :
    matchesGrouped keys row = true ↔
      ∀ f ∈ mappedFieldsOf keys, row f ∈ valuesFor keys f := by
  unfold matchesGrouped
  rw [List.all_eq_true]
  constructor
  · intro hall f hf
    have hfield : f ∈ (buildGroups keys).map Prod.fst :=
      (mem_fields_buildGroups keys f).mpr hf
    rcases List.mem_map.mp hfield with ⟨g, hg, hgf⟩
    have hvals : g.2 = valuesFor keys f := by
      rw [← groupValues_buildGroups keys f, ← hgf]
      exact (values_eq_groupValues_of_mem _ (nodup_fields_buildGroups keys) g hg).symm
    have hlen : 0 < g.2.length := by
      rw [hvals]
      cases hv : valuesFor keys f with
      | nil => exact absurd hv (valuesFor_ne_nil keys f hf)
      | cons a l => simp
    have := hall g (List.mem_filter.mpr ⟨hg, by simpa using hlen⟩)
    rw [← hvals, ← hgf]
    simpa [inCondHolds] using this
  · intro hforall g hgmem
    rcases List.mem_filter.mp hgmem with ⟨hg, -⟩
    have hfield : g.1 ∈ mappedFieldsOf keys :=
      (mem_fields_buildGroups keys g.1).mp (List.mem_map_of_mem Prod.fst hg)
    have hvals : g.2 = valuesFor keys g.1 := by
      rw [← groupValues_buildGroups keys g.1]
      exact (values_eq_groupValues_of_mem _ (nodup_fields_buildGroups keys) g hg).symm
    have := hforall g.1 hfield
    rw [← hvals] at this
    simpa [inCondHolds] using this

/-- Permuting the filter keys leaves the grouped-filter semantics
unchanged on every row. -/
theorem matchesGrouped_perm (keys keys' : List String) (row : RowVal)
    (hperm : keys.Perm keys') :
    matchesGrouped keys row = matchesGrouped keys' row := by
  have h1 := matchesGrouped_iff keys row
  have h2 := matchesGrouped_iff keys' row
  have hfields : ∀ f, f ∈ mappedFieldsOf keys ↔ f ∈ mappedFieldsOf keys' :=
    fun f => (hperm.filterMap _).mem_iff
  have hvals : ∀ f x, x ∈ valuesFor keys f ↔ x ∈ valuesFor keys' f :=
    fun f x => (hperm.filterMap _).mem_iff
  have hiff : matchesGrouped keys row = true ↔ matchesGrouped keys' row = true := by
    rw [h1, h2]
    constructor
    · intro h f hf
      rw [← hvals f]
      exact h f ((hfields f).mpr hf)
    · intro h f hf
      rw [hvals f]
      exact h f ((hfields f).mp hf)
  cases ha : matchesGrouped keys row <;> cases hb : matchesGrouped keys' row <;>
    simp_all

/-- C4: permuting the insertion order of the active filter keys yields
the same grouped query semantics on every row, and a row passes the
grouped static filters iff for every column targeted by a mapped active
key (AND across columns) the row's value lies in the set of values
mapped for that column (OR within a column). -/
theorem c4_grouped_or_and_semantics (ctx ctx' : QueryCtx) (row : RowVal)
    (hperm : ctx.activeFilters.Perm ctx'.activeFilters) :
    matchesGrouped ctx.otherFilters row = matchesGrouped ctx'.otherFilters row ∧
    (matchesGrouped ctx.otherFilters row = true ↔
      ∀ f ∈ mappedFieldsOf ctx.otherFilters,
        row f ∈ valuesFor ctx.otherFilters f) := by
  constructor
  · exact matchesGrouped_perm _ _ row (hperm.filter _)
  · exact matchesGrouped_iff _ row

/-- C4 witness: the tasks context with `completed` and `pending` active
in either order, on a row whose `status` column is `Pending`. -/
theorem c4_grouped_or_and_semantics_witness :
    matchesGrouped witnessTasksCtx.otherFilters
        (fun f => if f = "status" then "Pending" else "") =
      matchesGrouped ({ witnessTasksCtx with
          activeFilters := ["pending", "completed"] } : QueryCtx).otherFilters
        (fun f => if f = "status" then "Pending" else "") :=
  (c4_grouped_or_and_semantics witnessTasksCtx
    { witnessTasksCtx with activeFilters := ["pending", "completed"] }
    (fun f => if f = "status" then "Pending" else "") (by decide)).1
theorem c6_sanitized_search_witness :
    (',' ∉ sanitizeTerm ("John, (Doe)".toList) ∧
      '(' ∉ sanitizeTerm ("John, (Doe)".toList) ∧
      ')' ∉ sanitizeTerm ("John, (Doe)".toList)) ∧
    splitComma
        (joinComma (["name"].map
          (fun f => ilikeClause f (sanitizeTerm ("John, (Doe)".toList))))) =
      ["name"].map (fun f => ilikeClause f (sanitizeTerm ("John, (Doe)".toList))) :=
  c6_sanitized_search ("John, (Doe)".toList) ["name"] (by decide) (by decide)

end Stoodiora
